import Mathlib

/-!
A verification development for the legion admission-control webhook
(`internal/kubernetes/webhook.go`): the mutation data model, the merge
engine, the RFC 6902 patch generator, the ignore-predicate chain, the
review pipeline and the webhook transport, embedded shallowly, with the
spec's testable properties settled as theorems.
-/

namespace Legion

/-! ## Pod data model

`core.Pod` comes from the external library `k8s.io/api/core/v1`.
Modelled from the spec: §3 names the fields the mutation engine touches
(labels, annotations, containers, DNS policy, network mode); we embed
object metadata and the pod spec restricted to those fields.  Go maps
are embedded as association lists; absent maps and empty maps coincide
(both are the empty list), matching Go `nil`-map read semantics. -/

/-- A single container of a pod spec (name, image, command, args). -/
structure Container where
  name : String
  image : String
  command : List String
  args : List String
deriving DecidableEq, Repr

/-- Object metadata: name, namespace (Lean keyword, so field `ns`),
labels and annotations as association lists. -/
structure ObjectMeta where
  name : String
  ns : String
  labels : List (String × String)
  annotations : List (String × String)
deriving DecidableEq, Repr

/-- The pod-spec fields the mutation engine touches. -/
structure PodSpec where
  hostNetwork : Bool
  dnsPolicy : String
  containers : List Container
deriving DecidableEq, Repr

/-- A pod: metadata plus spec. -/
structure Pod where
  metadata : ObjectMeta
  spec : PodSpec
deriving DecidableEq, Repr

/-- The empty object metadata (all Go zero values). -/
def emptyMeta : ObjectMeta := ⟨"", "", [], []⟩

/-- The empty pod spec (all Go zero values). -/
def emptyPodSpec : PodSpec := ⟨false, "", []⟩

/-- Go map reads cannot observe duplicate keys; a pod embedded from a
real `core.Pod` has no duplicate keys in its labels or annotations. -/
def Pod.WF (p : Pod) : Prop :=
  (p.metadata.labels.map Prod.fst).Nodup ∧
  (p.metadata.annotations.map Prod.fst).Nodup

instance (p : Pod) : Decidable p.WF := by
  unfold Pod.WF; infer_instance

/-! ## Mutation specification (webhook.go lines 372-403) -/

/-- A PodMutationStrategy determines how pod configuration will be
injected: `overwrite` keys already set in the original pod, and
`append` to (rather than replace) arrays in the original pod. -/
structure PodMutationStrategy where
  overwrite : Bool
  append : Bool
deriving DecidableEq, Repr

/-- A PodMutationTemplate specifies the fields of a pod that will be
updated. -/
structure PodMutationTemplate where
  metadata : ObjectMeta
  spec : PodSpec
deriving DecidableEq, Repr

/-- A PodMutationSpec: strategy plus template. -/
structure PodMutationSpec where
  strategy : PodMutationStrategy
  template : PodMutationTemplate
deriving DecidableEq, Repr

/-- A PodMutation specifies how a pod will be mutated. -/
structure PodMutation where
  spec : PodMutationSpec
deriving DecidableEq, Repr

/-- The empty PodMutation: empty template, default (all-false) strategy. -/
def emptyPodMutation : PodMutation :=
  ⟨⟨⟨false, false⟩, ⟨emptyMeta, emptyPodSpec⟩⟩⟩

/-! ## Merge engine

`Patch` merges the template into a deep copy of the original pod with
`mergo.Merge`, passing `mergo.WithOverride` iff `strategy.overwrite`
and `mergo.WithAppendSlice` iff `strategy.append` (webhook.go lines
427-439).  `mergo` is an external library (github.com/imdario/mergo).
Modelled from the spec: §4.1 gives the merge contract — fields present
in the template but unset in the original are always populated;
scalar/map fields set in both: template wins iff `overwrite`; sequence
fields set in both: appended if `append`, else replaced wholesale iff
`overwrite`, else the original is kept; nested objects are merged
recursively field by field. -/

/-- Merge one scalar string field: an empty template value never
overwrites; an unset original is always filled; otherwise the template
wins iff `ow`. -/
def mergeStr (dst src : String) (ow : Bool) : String :=
  if src == "" then dst
  else if dst == "" then src
  else if ow then src else dst

/-- Merge one boolean field: `false` is the Go zero value, so the
template can only set the flag, never clear it. -/
def mergeBool (dst src : Bool) : Bool :=
  dst || src

/-- The merged value of the original map entry `(k, v)`: if the
template also binds `k`, the template's value wins iff `ow`. -/
def mergedVal (src : List (String × String)) (ow : Bool) (k v : String) : String :=
  match List.lookup k src with
  | some sv => if ow then sv else v
  | none => v

/-- Merge two maps: original entries (template value substituted where
`ow` demands it) followed by template-only entries. -/
def mergeMap (dst src : List (String × String)) (ow : Bool) :
    List (String × String) :=
  dst.map (fun kv => (kv.1, mergedVal src ow kv.1 kv.2))
    ++ src.filter (fun kv => (List.lookup kv.1 dst).isNone)

/-- Merge a sequence field: append if `ap`; otherwise an empty template
sequence is ignored, an empty original is filled, and a non-empty
original is replaced wholesale iff `ow`. -/
def mergeSeq {α : Type} (dst src : List α) (ow ap : Bool) : List α :=
  if ap then dst ++ src
  else if src.isEmpty then dst
  else if dst.isEmpty then src
  else if ow then src else dst

/-- Merge object metadata field by field. -/
def mergeMeta (dst src : ObjectMeta) (ow : Bool) : ObjectMeta :=
  ⟨mergeStr dst.name src.name ow,
   mergeStr dst.ns src.ns ow,
   mergeMap dst.labels src.labels ow,
   mergeMap dst.annotations src.annotations ow⟩

/-- Merge pod specs field by field. -/
def mergeSpec (dst src : PodSpec) (ow ap : Bool) : PodSpec :=
  ⟨mergeBool dst.hostNetwork src.hostNetwork,
   mergeStr dst.dnsPolicy src.dnsPolicy ow,
   mergeSeq dst.containers src.containers ow ap⟩

/-- The merge performed by `PodMutation.Patch`: template metadata and
spec merged into a copy of the original pod under the strategy. -/
def mergePod (original : Pod) (tmpl : PodMutationTemplate)
    (s : PodMutationStrategy) : Pod :=
  ⟨mergeMeta original.metadata tmpl.metadata s.overwrite,
   mergeSpec original.spec tmpl.spec s.overwrite s.append⟩

/-! ## Patch generator

`Patch` encodes the original and the merged pod as JSON and feeds both
to `jsonpatch.CreatePatch`, then sorts the operations with
`sort.Sort(jsonpatch.ByPath(patch))` and marshals them (webhook.go
lines 441-458).  `jsonpatch` is an external library
(github.com/appscode/jsonpatch).  Modelled from the spec: §4.2 gives
the diff contract — RFC 6902 operations, `add` for newly-present
paths, `replace` for changed leaf values, `remove` for paths present
only in `before`; array elements addressed by positional index;
`omitempty` serialization makes Go zero values absent paths. -/

/-- An RFC 6902 patch operation; `value` carries the already-rendered
JSON text of the operand, if any. -/
structure PatchOp where
  op : String
  path : String
  value : Option String
deriving DecidableEq, Repr

/-- Render a JSON string literal (escaping elided: the embedded field
values contain no metacharacters). -/
def jsonStr (s : String) : String := "\"" ++ s ++ "\""

/-- Render a map as a JSON object. -/
def jsonMap (m : List (String × String)) : String :=
  "\x7b" ++ String.intercalate ","
    (m.map (fun kv => jsonStr kv.1 ++ ":" ++ jsonStr kv.2)) ++ "\x7d"

/-- Render a list of strings as a JSON array. -/
def jsonStrList (l : List String) : String :=
  "[" ++ String.intercalate "," (l.map jsonStr) ++ "]"

/-- Render a container as a JSON object. -/
def jsonContainer (c : Container) : String :=
  "\x7b\"name\":" ++ jsonStr c.name ++ ",\"image\":" ++ jsonStr c.image
    ++ ",\"command\":" ++ jsonStrList c.command
    ++ ",\"args\":" ++ jsonStrList c.args ++ "\x7d"

/-- Diff one scalar string field at `path`; `""` serializes as an
absent path (`omitempty`). -/
def diffStr (path b a : String) : List PatchOp :=
  if b == a then []
  else if b == "" then [⟨"add", path, some (jsonStr a)⟩]
  else if a == "" then [⟨"remove", path, none⟩]
  else [⟨"replace", path, some (jsonStr a)⟩]

/-- Diff one boolean field at `path`; `false` serializes as an absent
path (`omitempty`). -/
def diffBool (path : String) (b a : Bool) : List PatchOp :=
  if b == a then []
  else if a then [⟨"add", path, some "true"⟩]
  else [⟨"remove", path, none⟩]

/-- Diff two maps at `path`: per-key `replace`/`remove` on the keys of
`before`, then per-key `add` for keys only in `after`; an entirely
absent map is added or removed as a whole object. -/
def diffMap (path : String) (b a : List (String × String)) : List PatchOp :=
  if b.isEmpty && a.isEmpty then []
  else if b.isEmpty then [⟨"add", path, some (jsonMap a)⟩]
  else if a.isEmpty then [⟨"remove", path, none⟩]
  else
    (b.filterMap fun kv =>
      match List.lookup kv.1 a with
      | some av => if kv.2 == av then none
                   else some ⟨"replace", path ++ "/" ++ kv.1, some (jsonStr av)⟩
      | none => some ⟨"remove", path ++ "/" ++ kv.1, none⟩)
    ++ (a.filterMap fun kv =>
      match List.lookup kv.1 b with
      | some _ => none
      | none => some ⟨"add", path ++ "/" ++ kv.1, some (jsonStr kv.2)⟩)

/-- Diff two string sequences index by index from index `i`:
`replace` at changed indices, `add` at new trailing indices, `remove`
at vanished trailing indices. -/
def diffStrSeqAux (path : String) (i : Nat) :
    List String → List String → List PatchOp
  | [], [] => []
  | [], a :: as =>
      ⟨"add", path ++ "/" ++ toString i, some (jsonStr a)⟩
        :: diffStrSeqAux path (i + 1) [] as
  | _ :: bs, [] =>
      ⟨"remove", path ++ "/" ++ toString i, none⟩
        :: diffStrSeqAux path (i + 1) bs []
  | b :: bs, a :: as =>
      (if b == a then []
       else [⟨"replace", path ++ "/" ++ toString i, some (jsonStr a)⟩])
        ++ diffStrSeqAux path (i + 1) bs as

/-- Diff two string sequences at `path`; an entirely absent sequence
is added or removed as a whole array (`omitempty`). -/
def diffStrSeq (path : String) (b a : List String) : List PatchOp :=
  if b.isEmpty && a.isEmpty then []
  else if b.isEmpty then [⟨"add", path, some (jsonStrList a)⟩]
  else if a.isEmpty then [⟨"remove", path, none⟩]
  else diffStrSeqAux path 0 b a

/-- Diff two containers at `path`, field by field. -/
def diffContainer (path : String) (b a : Container) : List PatchOp :=
  diffStr (path ++ "/name") b.name a.name
    ++ diffStr (path ++ "/image") b.image a.image
    ++ diffStrSeq (path ++ "/command") b.command a.command
    ++ diffStrSeq (path ++ "/args") b.args a.args

/-- Diff two container sequences index by index from index `i`. -/
def diffContainersAux (path : String) (i : Nat) :
    List Container → List Container → List PatchOp
  | [], [] => []
  | [], a :: as =>
      ⟨"add", path ++ "/" ++ toString i, some (jsonContainer a)⟩
        :: diffContainersAux path (i + 1) [] as
  | _ :: bs, [] =>
      ⟨"remove", path ++ "/" ++ toString i, none⟩
        :: diffContainersAux path (i + 1) bs []
  | b :: bs, a :: as =>
      diffContainer (path ++ "/" ++ toString i) b a
        ++ diffContainersAux path (i + 1) bs as

/-- Diff two container sequences at `path`. -/
def diffContainers (path : String) (b a : List Container) : List PatchOp :=
  diffContainersAux path 0 b a

/-- `jsonpatch.CreatePatch` on the canonical JSON encodings of two
pods: a structural diff over every embedded field. -/
def createPatchPod (b a : Pod) : List PatchOp :=
  diffStr "/metadata/name" b.metadata.name a.metadata.name
    ++ diffStr "/metadata/namespace" b.metadata.ns a.metadata.ns
    ++ diffMap "/metadata/labels" b.metadata.labels a.metadata.labels
    ++ diffMap "/metadata/annotations" b.metadata.annotations a.metadata.annotations
    ++ diffBool "/spec/hostNetwork" b.spec.hostNetwork a.spec.hostNetwork
    ++ diffStr "/spec/dnsPolicy" b.spec.dnsPolicy a.spec.dnsPolicy
    ++ diffContainers "/spec/containers" b.spec.containers a.spec.containers

/-- The path order used by `jsonpatch.ByPath`. -/
def opLe (x y : PatchOp) : Prop := x.path ≤ y.path

instance : DecidableRel opLe :=
  fun x y => inferInstanceAs (Decidable (x.path ≤ y.path))

instance : IsTotal PatchOp opLe := ⟨fun x y => le_total x.path y.path⟩

instance : IsTrans PatchOp opLe := ⟨fun _ _ _ => le_trans⟩

/-- `sort.Sort(jsonpatch.ByPath(patch))` (webhook.go line 453). -/
def sortByPath (ops : List PatchOp) : List PatchOp :=
  List.insertionSort opLe ops

/-- Marshal one operation as JSON. -/
def encodeOp (o : PatchOp) : String :=
  "\x7b\"op\":" ++ jsonStr o.op ++ ",\"path\":" ++ jsonStr o.path
    ++ (match o.value with
        | some v => ",\"value\":" ++ v
        | none => "") ++ "\x7d"

/-- `json.Marshal` of the operation sequence. -/
def encodeOps (ops : List PatchOp) : String :=
  "[" ++ String.intercalate "," (ops.map encodeOp) ++ "]"

/-- The sorted operation sequence computed by `Patch`. -/
def patchOps (m : PodMutation) (o : Pod) : List PatchOp :=
  sortByPath (createPatchPod o (mergePod o m.spec.template m.spec.strategy))

/-- `PodMutation.Patch` (webhook.go lines 422-459): merge the template
into a deep copy of the pod, encode both, diff, sort by path, marshal.
In the typed embedding the merge and the encodings are total, so the
error exits of the Go function (mergo failure, encode failure) cannot
fire and the result is always `Except.ok`. -/
def PodMutation.Patch (m : PodMutation) (original : Pod) :
    Except String String :=
  let injected := mergePod original m.spec.template m.spec.strategy
  Except.ok (encodeOps (sortByPath (createPatchPod original injected)))

/-! ## Admission review data model

`admission.AdmissionRequest` / `admission.AdmissionResponse` are
external types (`k8s.io/api/admission/v1beta1`).  Modelled from the
spec: §6 gives the envelope — request `{resource, namespace, name,
kind, object}`, response `{allowed, patch?, patchType?, uid,
result?}`.  The request's raw object bytes are decoded by the external
permissive serializer; the embedding carries the decode outcome
(`Except.ok pod` or `Except.error msg`) in the request, which is the
only way `Review` observes the bytes.  Logging- and metrics-only
request fields (kind, namespace, name) are elided. -/

/-- `meta.GroupVersionResource`. -/
structure GroupVersionResource where
  group : String
  version : String
  resource : String
deriving DecidableEq, Repr

/-- `resourcePod = meta.GroupVersionResource{Version: "v1", Resource: "pods"}`
(webhook.go line 347). -/
def resourcePod : GroupVersionResource := ⟨"", "v1", "pods"⟩

/-- An admission request: UID, requested resource, and the decode
outcome of the embedded raw object bytes. -/
structure AdmissionRequest where
  uid : String
  resource : GroupVersionResource
  object : Except String Pod

/-- `meta.Status` restricted to the fields `admissionError` sets. -/
structure Status where
  status : String
  reason : String
  message : String
deriving DecidableEq, Repr

/-- An admission response; Go zero values are `""`, `false`, `none`. -/
structure AdmissionResponse where
  uid : String
  allowed : Bool
  patch : Option String
  patchType : Option String
  result : Option Status
deriving DecidableEq, Repr

/-- `meta.StatusFailure`. -/
def statusFailure : String := "Failure"

/-- `meta.StatusReasonInvalid`. -/
def statusReasonInvalid : String := "Invalid"

/-- `meta.StatusReasonInternalError`. -/
def statusReasonInternalError : String := "InternalError"

/-- `admission.PatchTypeJSONPatch`. -/
def patchTypeJSONPatch : String := "JSONPatch"

/-- `admissionError` (webhook.go lines 579-587): a failure result with
the supplied reason and message; every other response field keeps its
zero value. -/
def admissionError (msg reason : String) : AdmissionResponse :=
  ⟨"", false, none, none, some ⟨statusFailure, reason, msg⟩⟩

/-! ## Ignore predicates (webhook.go lines 468-493) -/

/-- IgnoreFunc returns true if a pod should be allowed without
injection. -/
abbrev IgnoreFunc : Type := Pod → Bool

/-- `p.GetAnnotations()[k]`: a Go map read of a missing key (or of a
nil map) yields the zero value `""`. -/
def annotationOf (p : Pod) (k : String) : String :=
  (List.lookup k p.metadata.annotations).getD ""

/-- Ignore pods in the host network namespace. -/
def IgnorePodsInHostNetwork : IgnoreFunc :=
  fun p => p.spec.hostNetwork

/-- Ignore pods whose annotation under `k` reads as `v`. -/
def IgnorePodsWithAnnotation (k v : String) : IgnoreFunc :=
  fun p => annotationOf p k == v

/-- Ignore pods whose annotation under `k` does not read as `v`. -/
def IgnorePodsWithoutAnnotation (k v : String) : IgnoreFunc :=
  fun p => annotationOf p k != v

/-! ## Review pipeline (webhook.go lines 521-577) -/

/-- A PodMutator: the injected Patcher and the ignore chain.  The
logger and the metrics sink are observability-only and elided. -/
structure PodMutator where
  p : Pod → Except String String
  ignore : List IgnoreFunc

/-- `PodMutator.Review`: reject non-pod resources with reason
`Invalid`; reject undecodable objects with reason `Invalid`; allow
ignored pods unmodified; reject patcher failures with reason
`InternalError`; otherwise allow with the patch, the `JSONPatch`
patch type and the request's UID. -/
def PodMutator.Review (m : PodMutator) (ar : AdmissionRequest) :
    AdmissionResponse :=
  if ar.resource ≠ resourcePod then
    admissionError "cannot review non-pod resource" statusReasonInvalid
  else
    match ar.object with
    | Except.error e =>
        admissionError ("cannot decode object as a pod: " ++ e)
          statusReasonInvalid
    | Except.ok pod =>
        if m.ignore.any (fun ig => ig pod) then
          ⟨"", true, none, none, none⟩
        else
          match m.p pod with
          | Except.error e =>
              admissionError ("cannot patch pod: " ++ e)
                statusReasonInternalError
          | Except.ok patch =>
              ⟨ar.uid, true, some patch, some patchTypeJSONPatch, none⟩

/-! ## Response shapes (spec §3) -/

/-- The *allowed-unmodified* response shape. -/
def allowedUnmodified (r : AdmissionResponse) : Prop :=
  r.allowed = true ∧ r.patch = none ∧ r.patchType = none ∧ r.result = none

/-- The *allowed-with-patch* response shape. -/
def allowedWithPatch (r : AdmissionResponse) : Prop :=
  r.allowed = true ∧ (∃ b, r.patch = some b)
    ∧ r.patchType = some patchTypeJSONPatch ∧ r.result = none

/-- The *rejected* response shape. -/
def rejected (r : AdmissionResponse) : Prop :=
  r.allowed = false ∧ r.patch = none ∧ r.patchType = none
    ∧ ∃ s, r.result = some s ∧ s.status = statusFailure

/-! ## Webhook transport (webhook.go lines 34-56)

The envelope decode is done by the external serializer; the embedding
carries the decode outcome of the HTTP body as an inductive.  Modelled
from the spec: §4.5 — non-empty body required, decodable envelope
required, inner request required, all before the Reviewer runs. -/

/-- The decode outcome of an HTTP request body: empty bytes, bytes the
serializer rejects (with its error message), or a decoded admission
review envelope whose inner request may be absent. -/
inductive RequestBody : Type where
  | empty : RequestBody
  | undecodable : String → RequestBody
  | review : Option AdmissionRequest → RequestBody

/-- An HTTP-level response: status code and body text. -/
structure HttpResponse where
  status : Nat
  body : String

/-- Render the admission review envelope around a response
(`serializer.Encode` on the happy path, simplified rendering). -/
def encodeReviewEnvelope (r : AdmissionResponse) : String :=
  "\x7b\"response\":\x7b\"uid\":" ++ jsonStr r.uid
    ++ ",\"allowed\":" ++ (if r.allowed then "true" else "false")
    ++ "\x7d\x7d"

/-- `AdmissionReviewWebhook` (webhook.go lines 34-56): HTTP 400 for an
empty body, an undecodable body, or an envelope without a request
(`http.Error` messages as in the source); otherwise the Reviewer's
response, encoded, with HTTP 200. -/
def AdmissionReviewWebhook
    (review : AdmissionRequest → AdmissionResponse) :
    RequestBody → HttpResponse
  | RequestBody.empty =>
      ⟨400, "cannot parse empty request body"⟩
  | RequestBody.undecodable e =>
      ⟨400, "cannot decode request body as admission review: " ++ e⟩
  | RequestBody.review none =>
      ⟨400, "admission review must contain a request"⟩
  | RequestBody.review (some rq) =>
      ⟨200, encodeReviewEnvelope (review rq)⟩

/-! ## String containment (used to state what a message names) -/

/-- `leadsWith needle hay`: `needle` is an initial segment of `hay`. -/
def leadsWith : List Char → List Char → Bool
  | [], _ => true
  | _ :: _, [] => false
  | a :: as, b :: bs => a == b && leadsWith as bs

/-- `containsChars needle hay`: `needle` occurs contiguously in `hay`. -/
def containsChars (needle : List Char) : List Char → Bool
  | [] => leadsWith needle []
  | c :: cs => leadsWith needle (c :: cs) || containsChars needle cs

/-- `strContains hay needle`: `needle` is a substring of `hay`. -/
def strContains (hay needle : String) : Bool :=
  containsChars needle.toList hay.toList

/-! ## Concrete sample data (test data of `inject_test.go`) -/

/-- The sample pod of the repository's test data. -/
def samplePod : Pod :=
  ⟨⟨"coolpod", "coolnamespace", [("cool", "true")], [("cool", "true")]⟩,
   ⟨false, "ClusterFirst",
    [⟨"coolcontainer", "coolimage:coolest", ["/cool"], ["-very"]⟩]⟩⟩

/-- A pod with no annotations at all. -/
def bareAnnPod : Pod := ⟨⟨"p", "ns", [], []⟩, ⟨false, "", []⟩⟩

/-- A patcher that always succeeds with a fixed payload. -/
def patcherOk : Pod → Except String String := fun _ => Except.ok "p"

/-- A patcher that always fails. -/
def patcherFail : Pod → Except String String := fun _ => Except.error "boom"

/-- A mutator with an empty ignore chain. -/
def mutatorSample : PodMutator := ⟨patcherOk, []⟩

/-- A pod admission request with UID `uid1`. -/
def arSample : AdmissionRequest := ⟨"uid1", resourcePod, Except.ok samplePod⟩

/-- An admission request for the resource kind `configmaps`. -/
def arConfigmaps : AdmissionRequest :=
  ⟨"", ⟨"", "v1", "configmaps"⟩, Except.error "unused"⟩

/-- A mutation with overwrite strategy, template DNS policy `None` and
template annotation `cool=false`. -/
def overwriteMutation : PodMutation :=
  ⟨⟨⟨true, false⟩, ⟨⟨"", "", [], [("cool", "false")]⟩, ⟨false, "None", []⟩⟩⟩⟩

/-- A mutation with append strategy adding one container. -/
def appendMutation : PodMutation :=
  ⟨⟨⟨false, true⟩,
    ⟨emptyMeta,
     ⟨false, "",
      [⟨"coolercontainer", "extracool:somehowmorecool", [], []⟩]⟩⟩⟩⟩

/-! ## Helper lemmas -/

theorem lookup_append_some {k v : String} :
    ∀ {l₁ : List (String × String)} (l₂ : List (String × String)),
      List.lookup k l₁ = some v → List.lookup k (l₁ ++ l₂) = some v
  | [], _, h => by simp at h
  | (k', v') :: rest, l₂, h => by
      rw [List.lookup_cons] at h
      rw [List.cons_append, List.lookup_cons]
      cases hk : (k == k') with
      | true => simpa [hk] using h
      | false =>
          simp only [hk] at h ⊢
          exact lookup_append_some l₂ h

theorem lookup_map_mergedVal (src : List (String × String)) (ow : Bool) :
    ∀ (dst : List (String × String)) (k dv : String),
      List.lookup k dst = some dv →
      List.lookup k (dst.map (fun kv => (kv.1, mergedVal src ow kv.1 kv.2)))
        = some (mergedVal src ow k dv)
  | [], _, _, h => by simp at h
  | (k', v') :: rest, k, dv, h => by
      rw [List.lookup_cons] at h
      rw [List.map_cons, List.lookup_cons]
      cases hk : (k == k') with
      | true =>
          have hkk : k = k' := eq_of_beq hk
          simp only [hk] at h ⊢
          cases h
          rw [hkk]
      | false =>
          simp only [hk] at h ⊢
          exact lookup_map_mergedVal src ow rest k dv h

theorem lookup_mergeMap (dst src : List (String × String)) (ow : Bool)
    (k dv sv : String) (hd : List.lookup k dst = some dv)
    (hs : List.lookup k src = some sv) :
    List.lookup k (mergeMap dst src ow) = some (if ow then sv else dv) := by
  have h1 := lookup_map_mergedVal src ow dst k dv hd
  have h2 := lookup_append_some
    (src.filter (fun kv => (List.lookup kv.1 dst).isNone)) h1
  rw [mergeMap, h2, mergedVal, hs]

theorem lookup_of_mem_nodup :
    ∀ {m : List (String × String)}, (m.map Prod.fst).Nodup →
      ∀ {kv : String × String}, kv ∈ m → List.lookup kv.1 m = some kv.2
  | [], _, _, hm => by simp at hm
  | (k', v') :: rest, hn, kv, hm => by
      rw [List.map_cons, List.nodup_cons] at hn
      rw [List.lookup_cons]
      rcases List.mem_cons.mp hm with h | h
      · subst h
        simp
      · cases hk : (kv.1 == k') with
        | true =>
            exfalso
            apply hn.1
            have hmem : kv.1 ∈ rest.map Prod.fst :=
              List.mem_map_of_mem Prod.fst h
            rw [eq_of_beq hk] at hmem
            exact hmem
        | false =>
            exact lookup_of_mem_nodup hn.2 h

theorem mergeStr_empty_src (d : String) (ow : Bool) : mergeStr d "" ow = d := by
  simp [mergeStr]

theorem mergeMap_nil (d : List (String × String)) (ow : Bool) :
    mergeMap d [] ow = d := by
  rw [mergeMap, List.filter_nil, List.append_nil]
  induction d with
  | nil => rfl
  | cons kv rest ih =>
      rw [List.map_cons, ih]
      rfl

theorem mergeSeq_nil_src {α : Type} (d : List α) (ow : Bool) :
    mergeSeq d [] ow false = d := by
  simp [mergeSeq]

theorem mergePod_empty (p : Pod) :
    mergePod p emptyPodMutation.spec.template emptyPodMutation.spec.strategy
      = p := by
  cases p with
  | mk md sp =>
      cases md; cases sp
      simp [mergePod, mergeMeta, mergeSpec, emptyPodMutation, emptyMeta,
        emptyPodSpec, mergeStr_empty_src, mergeMap_nil, mergeSeq_nil_src,
        mergeBool]

theorem diffStr_self (p s : String) : diffStr p s s = [] := by
  simp [diffStr]

theorem diffBool_self (p : String) (b : Bool) : diffBool p b b = [] := by
  simp [diffBool]

theorem diffMap_self (p : String) {m : List (String × String)}
    (h : (m.map Prod.fst).Nodup) : diffMap p m m = [] := by
  rw [diffMap]
  cases m with
  | nil => rfl
  | cons kv rest =>
      rw [if_neg (by simp), if_neg (by simp), if_neg (by simp)]
      rw [List.append_eq_nil]
      constructor
      · rw [List.filterMap_eq_nil_iff]
        intro a ha
        rw [lookup_of_mem_nodup h ha]
        simp
      · rw [List.filterMap_eq_nil_iff]
        intro a ha
        rw [lookup_of_mem_nodup h ha]

theorem diffStrSeqAux_self (p : String) (i : Nat) (l : List String) :
    diffStrSeqAux p i l l = [] := by
  induction l generalizing i with
  | nil => simp [diffStrSeqAux]
  | cons s rest ih => simp [diffStrSeqAux, ih]

theorem diffStrSeq_self (p : String) (l : List String) :
    diffStrSeq p l l = [] := by
  cases l with
  | nil => rfl
  | cons s rest =>
      rw [diffStrSeq, if_neg (by simp), if_neg (by simp), if_neg (by simp)]
      exact diffStrSeqAux_self p 0 (s :: rest)

theorem diffContainer_self (p : String) (c : Container) :
    diffContainer p c c = [] := by
  rw [diffContainer, diffStr_self, diffStr_self, diffStrSeq_self,
    diffStrSeq_self]
  rfl

theorem diffContainersAux_self (p : String) (i : Nat) (l : List Container) :
    diffContainersAux p i l l = [] := by
  induction l generalizing i with
  | nil => simp [diffContainersAux]
  | cons c rest ih => simp [diffContainersAux, diffContainer_self, ih]

theorem createPatchPod_self {p : Pod} (h : p.WF) :
    createPatchPod p p = [] := by
  rw [createPatchPod, diffStr_self, diffStr_self, diffStr_self,
    diffBool_self, diffMap_self "/metadata/labels" h.1,
    diffMap_self "/metadata/annotations" h.2, diffContainers,
    diffContainersAux_self]
  rfl

/-! ## Claim theorems -/

/-- C1: for every (original pod, mutation) pair, the operation sequence
computed by `Patch` is sorted by path order before being JSON-encoded,
and `Patch` returns exactly the encoding of that sorted sequence, so
`Patch` (a pure function of its two inputs) yields byte-identical
payloads on equal inputs. -/
theorem patch_sorted_by_path (m : PodMutation) (o : Pod) :
    PodMutation.Patch m o = Except.ok (encodeOps (patchOps m o))
      ∧ List.Sorted opLe (patchOps m o) :=
  ⟨rfl, List.sorted_insertionSort opLe _⟩

/-- C5: for every original pod and mutation whose sequence field (the
container list) is set in both, merging under `strategy.append` yields
the original containers followed by the template containers: the length
is the sum, the first `len(original)` elements are the original's in
their original relative order, and duplicates are not removed. -/
theorem merge_append_concatenates (o : Pod) (m : PodMutation)
    (hap : m.spec.strategy.append = true)
    (_hb : o.spec.containers ≠ [])
    (_ha : m.spec.template.spec.containers ≠ []) :
    (mergePod o m.spec.template m.spec.strategy).spec.containers
        = o.spec.containers ++ m.spec.template.spec.containers
      ∧ (mergePod o m.spec.template m.spec.strategy).spec.containers.length
        = o.spec.containers.length + m.spec.template.spec.containers.length
      ∧ (mergePod o m.spec.template m.spec.strategy).spec.containers.take
          o.spec.containers.length = o.spec.containers := by
  have h1 : (mergePod o m.spec.template m.spec.strategy).spec.containers
      = o.spec.containers ++ m.spec.template.spec.containers := by
    simp [mergePod, mergeSpec, mergeSeq, hap]
  refine ⟨h1, ?_, ?_⟩
  · rw [h1, List.length_append]
  · rw [h1]
    exact List.take_left _ _

/-- C5 witness: appending one container to the sample pod's single
container yields the two containers in order. -/
theorem merge_append_concatenates_witness :
    (mergePod samplePod appendMutation.spec.template
        appendMutation.spec.strategy).spec.containers
      = samplePod.spec.containers
          ++ appendMutation.spec.template.spec.containers :=
  (merge_append_concatenates samplePod appendMutation rfl
    (by simp [samplePod]) (by simp [appendMutation])).1

/-- C9: a pod with no annotation under `k` (including a pod with no
annotation map at all) is matched by
`IgnorePodsWithAnnotation k ""` — the missing-key lookup yields the
empty string — and dually is not matched by
`IgnorePodsWithoutAnnotation k ""`. -/
theorem ignore_empty_annotation_matches_absent (p : Pod) (k : String)
    (h : List.lookup k p.metadata.annotations = none) :
    IgnorePodsWithAnnotation k "" p = true
      ∧ IgnorePodsWithoutAnnotation k "" p = false := by
  constructor
  · simp [ IgnorePodsWithAnnotation, annotationOf, h]
  · simp [ IgnorePodsWithoutAnnotation, annotationOf, h]

/-- C9 witness: the annotation-free pod is matched by the empty-valued
with-annotation rule and not by the without-annotation rule. -/
theorem ignore_empty_annotation_matches_absent_witness :
    IgnorePodsWithAnnotation "legion" "" bareAnnPod = true
      ∧ IgnorePodsWithoutAnnotation "legion" "" bareAnnPod = false :=
  ignore_empty_annotation_matches_absent bareAnnPod "legion" rfl

/-- C8: an empty HTTP body is answered 400 with the message
`cannot parse empty request body`; an undecodable body and an envelope
with no inner request are also answered 400; in all three cases the
response does not depend on the Reviewer, which is therefore never
invoked. -/
theorem webhook_rejects_bad_bodies
    (rev rev' : AdmissionRequest → AdmissionResponse) :
    AdmissionReviewWebhook rev RequestBody.empty
        = ⟨400, "cannot parse empty request body"⟩
      ∧ (∀ e, (AdmissionReviewWebhook rev (RequestBody.undecodable e)).status
            = 400
          ∧ AdmissionReviewWebhook rev (RequestBody.undecodable e)
            = AdmissionReviewWebhook rev' (RequestBody.undecodable e))
      ∧ (AdmissionReviewWebhook rev (RequestBody.review none)).status = 400
      ∧ AdmissionReviewWebhook rev RequestBody.empty
        = AdmissionReviewWebhook rev' RequestBody.empty
      ∧ AdmissionReviewWebhook rev (RequestBody.review none)
        = AdmissionReviewWebhook rev' (RequestBody.review none) :=
  ⟨rfl, fun _ => ⟨rfl, rfl⟩, rfl, rfl, rfl⟩

/-- C4: for every original pod and mutation whose template sets a field
also set on the original — here the scalar `dnsPolicy` and an
annotation map entry — the merge performed by `Patch` yields the
template's value at that field iff `strategy.overwrite` is true, and
the original's value iff it is false. -/
theorem merge_overwrite_semantics (o : Pod) (m : PodMutation)
    (k dv sv : String)
    (hb : o.spec.dnsPolicy ≠ "")
    (ha : m.spec.template.spec.dnsPolicy ≠ "")
    (hkb : List.lookup k o.metadata.annotations = some dv)
    (hka : List.lookup k m.spec.template.metadata.annotations = some sv) :
    (mergePod o m.spec.template m.spec.strategy).spec.dnsPolicy
        = (if m.spec.strategy.overwrite then m.spec.template.spec.dnsPolicy
           else o.spec.dnsPolicy)
      ∧ List.lookup k
          (mergePod o m.spec.template m.spec.strategy).metadata.annotations
        = some (if m.spec.strategy.overwrite then sv else dv) := by
  constructor
  · have h1 : (m.spec.template.spec.dnsPolicy == "") = false := by
      simpa using ha
    have h2 : (o.spec.dnsPolicy == "") = false := by
      simpa using hb
    simp [mergePod, mergeSpec, mergeStr, h1, h2]
  · exact lookup_mergeMap o.metadata.annotations
      m.spec.template.metadata.annotations m.spec.strategy.overwrite
      k dv sv hkb hka

/-- C4 witness: overwriting the sample pod with a template that resets
`dnsPolicy` and the `cool` annotation yields the template's values. -/
theorem merge_overwrite_semantics_witness :
    (mergePod samplePod overwriteMutation.spec.template
        overwriteMutation.spec.strategy).spec.dnsPolicy = "None"
      ∧ List.lookup "cool"
          (mergePod samplePod overwriteMutation.spec.template
            overwriteMutation.spec.strategy).metadata.annotations
        = some "false" :=
  merge_overwrite_semantics samplePod overwriteMutation "cool" "true" "false"
    (by decide) (by decide) rfl rfl

/-- C6: for every pod whose label and annotation maps have no duplicate
keys (every pod decoded from a real Go map), `Patch` with the empty
`PodMutation` succeeds and returns exactly the encoding of the empty
operation sequence, the bytes `[]`: the no-op merge diffs to nothing
and never errors. -/
theorem patch_empty_mutation_noop (o : Pod) (hwf : o.WF) :
    PodMutation.Patch emptyPodMutation o = Except.ok "[]" := by
  rw [PodMutation.Patch]
  rw [mergePod_empty o, createPatchPod_self hwf]
  rfl

/-- C6 witness: the empty mutation on the sample pod yields `[]`. -/
theorem patch_empty_mutation_noop_witness :
    PodMutation.Patch emptyPodMutation samplePod = Except.ok "[]" :=
  patch_empty_mutation_noop samplePod (by decide)

/-- C2 (as stated) is false on the code: for the resource kind
`configmaps` the rejection carries reason `Invalid`, but its message is
the fixed string `cannot review non-pod resource`, which names neither
the expected kind `pods` nor the observed kind `configmaps` — the
expected/observed pair goes only to the log. -/
theorem review_nonpod_message_names_no_kind :
    (PodMutator.Review mutatorSample arConfigmaps).result
        = some ⟨"Failure", "Invalid", "cannot review non-pod resource"⟩
      ∧ strContains "cannot review non-pod resource" "pods" = false
      ∧ strContains "cannot review non-pod resource" "configmaps" = false :=
  ⟨rfl, by decide, by decide⟩

/-- C2 (amended): for every admission request whose resource is not
{version `v1`, resource `pods`}, `Review` returns the rejected response
with reason `Invalid` and the fixed message
`cannot review non-pod resource` (the expected and observed kinds are
logged, not put in the message), and the response does not depend on
the Patcher or the ignore chain, so the merge stage is never invoked. -/
theorem review_rejects_nonpod_resource
    (pf pf' : Pod → Except String String) (ig ig' : List IgnoreFunc)
    (ar : AdmissionRequest) (h : ar.resource ≠ resourcePod) :
    PodMutator.Review ⟨pf, ig⟩ ar
        = admissionError "cannot review non-pod resource" statusReasonInvalid
      ∧ PodMutator.Review ⟨pf, ig⟩ ar = PodMutator.Review ⟨pf', ig'⟩ ar := by
  constructor
  · rw [PodMutator.Review, if_pos h]
  · rw [PodMutator.Review, if_pos h]
    rw [PodMutator.Review]
    exact (if_pos h).symm

/-- C2 (amended) witness: the `configmaps` request is rejected with
reason `Invalid` and the fixed message, independently of the patcher. -/
theorem review_rejects_nonpod_resource_witness :
    PodMutator.Review ⟨patcherOk, []⟩ arConfigmaps
        = admissionError "cannot review non-pod resource" statusReasonInvalid
      ∧ PodMutator.Review ⟨patcherOk, []⟩ arConfigmaps
        = PodMutator.Review ⟨patcherFail, [fun _ => true]⟩ arConfigmaps :=
  review_rejects_nonpod_resource patcherOk patcherFail [] [fun _ => true]
    arConfigmaps (by decide)

/-- C3: for every well-formed pod request, if some predicate in the
ignore chain returns true on the decoded pod and every predicate before
it returns false, then `Review` returns the allowed-unmodified response
(allowed, no patch, no patch type, no failure result), and the response
does not depend on the Patcher or on the predicates after the first
matching one — neither is ever invoked. -/
theorem review_ignore_short_circuits
    (pf pf' : Pod → Except String String)
    (pre post post' : List IgnoreFunc) (f : IgnoreFunc)
    (ar : AdmissionRequest) (pod : Pod)
    (hres : ar.resource = resourcePod)
    (hobj : ar.object = Except.ok pod)
    (_hpre : ∀ g ∈ pre, g pod = false)
    (hf : f pod = true) :
    PodMutator.Review ⟨pf, pre ++ f :: post⟩ ar
        = ⟨"", true, none, none, none⟩
      ∧ PodMutator.Review ⟨pf, pre ++ f :: post⟩ ar
        = PodMutator.Review ⟨pf', pre ++ f :: post'⟩ ar := by
  have hany : ∀ (l : List IgnoreFunc),
      (pre ++ f :: l).any (fun ig => ig pod) = true := by
    intro l
    rw [List.any_append, List.any_cons, hf]
    simp
  have hone : ∀ (pf₀ : Pod → Except String String) (l : List IgnoreFunc),
      PodMutator.Review ⟨pf₀, pre ++ f :: l⟩ ar
        = ⟨"", true, none, none, none⟩ := by
    intro pf₀ l
    rw [PodMutator.Review, if_neg (by simp [hres]), hobj]
    simp only [hany]
    rfl
  exact ⟨hone pf post, (hone pf post).trans (hone pf' post').symm⟩

/-- C3 witness: with a matching predicate in the chain, the sample
request is allowed unmodified whatever the patcher and whatever comes
after the match. -/
theorem review_ignore_short_circuits_witness :
    PodMutator.Review ⟨patcherOk, [] ++ (fun _ => true) :: [fun _ => false]⟩
        arSample = ⟨"", true, none, none, none⟩
      ∧ PodMutator.Review
          ⟨patcherOk, [] ++ (fun _ => true) :: [fun _ => false]⟩ arSample
        = PodMutator.Review ⟨patcherFail, [] ++ (fun _ => true) :: []⟩
            arSample :=
  review_ignore_short_circuits patcherOk patcherFail [] [fun _ => false] []
    (fun _ => true) arSample samplePod rfl rfl (by simp) rfl

theorem shape_error (msg reason : String) :
    rejected (admissionError msg reason)
      ∧ ¬ allowedUnmodified (admissionError msg reason)
      ∧ ¬ allowedWithPatch (admissionError msg reason) := by
  simp [rejected, allowedUnmodified, allowedWithPatch, admissionError]

theorem shape_ignored :
    allowedUnmodified (⟨"", true, none, none, none⟩ : AdmissionResponse)
      ∧ ¬ allowedWithPatch (⟨"", true, none, none, none⟩ : AdmissionResponse)
      ∧ ¬ rejected (⟨"", true, none, none, none⟩ : AdmissionResponse) := by
  simp [rejected, allowedUnmodified, allowedWithPatch]

theorem shape_mutated (uid b : String) :
    allowedWithPatch
        (⟨uid, true, some b, some patchTypeJSONPatch, none⟩ : AdmissionResponse)
      ∧ ¬ allowedUnmodified
          (⟨uid, true, some b, some patchTypeJSONPatch, none⟩ :
            AdmissionResponse)
      ∧ ¬ rejected
          (⟨uid, true, some b, some patchTypeJSONPatch, none⟩ :
            AdmissionResponse) := by
  simp [rejected, allowedUnmodified, allowedWithPatch]

/-- C7: for every admission request, malformed ones included, `Review`
returns a response (it is a total function) that is exactly one of the
three shapes — allowed-unmodified, allowed-with-patch, or rejected —
and never a combination of them. -/
theorem review_exactly_one_shape (m : PodMutator) (ar : AdmissionRequest) :
    (allowedUnmodified (PodMutator.Review m ar)
        ∧ ¬ allowedWithPatch (PodMutator.Review m ar)
        ∧ ¬ rejected (PodMutator.Review m ar))
      ∨ (allowedWithPatch (PodMutator.Review m ar)
        ∧ ¬ allowedUnmodified (PodMutator.Review m ar)
        ∧ ¬ rejected (PodMutator.Review m ar))
      ∨ (rejected (PodMutator.Review m ar)
        ∧ ¬ allowedUnmodified (PodMutator.Review m ar)
        ∧ ¬ allowedWithPatch (PodMutator.Review m ar)) := by
  rw [PodMutator.Review]
  split
  · exact Or.inr (Or.inr (shape_error _ _))
  · split
    · exact Or.inr (Or.inr (shape_error _ _))
    · split
      · exact Or.inl shape_ignored
      · split
        · exact Or.inr (Or.inr (shape_error _ _))
        · exact Or.inr (Or.inl
            ⟨(shape_mutated _ _).1, (shape_mutated _ _).2.1,
             (shape_mutated _ _).2.2⟩)

/-- C10: for every admission request, only the allowed-with-patch
(mutated) response copies the request's UID into the response; the
allowed-unmodified (ignored) response and every rejected response
leave the response UID empty. -/
theorem review_uid_only_on_mutated (m : PodMutator) (ar : AdmissionRequest) :
    (allowedWithPatch (PodMutator.Review m ar)
        → (PodMutator.Review m ar).uid = ar.uid)
      ∧ (allowedUnmodified (PodMutator.Review m ar)
        → (PodMutator.Review m ar).uid = "")
      ∧ (rejected (PodMutator.Review m ar)
        → (PodMutator.Review m ar).uid = "") := by
  rw [PodMutator.Review]
  split
  · exact ⟨fun h => absurd h (shape_error _ _).2.2, fun _ => rfl, fun _ => rfl⟩
  · split
    · exact ⟨fun h => absurd h (shape_error _ _).2.2, fun _ => rfl,
        fun _ => rfl⟩
    · split
      · exact ⟨fun h => absurd h shape_ignored.2.1, fun _ => rfl,
          fun _ => rfl⟩
      · split
        · exact ⟨fun h => absurd h (shape_error _ _).2.2, fun _ => rfl,
            fun _ => rfl⟩
        · exact ⟨fun _ => rfl,
            fun h => absurd h (shape_mutated _ _).2.1,
            fun h => absurd h (shape_mutated _ _).2.2⟩

/-- C10 witness: on the mutated path the response carries the request's
UID `uid1`. -/
theorem review_uid_only_on_mutated_witness :
    (PodMutator.Review mutatorSample arSample).uid = arSample.uid :=
  (review_uid_only_on_mutated mutatorSample arSample).1
    ⟨rfl, ⟨"p", rfl⟩, rfl, rfl⟩

end Legion
